import Mathlib

/-!
Verification of the download engine of quran_dl.py (Quran audio downloader).

The development shallowly embeds the four engine components:
selection parser (`parse_surah_selection`), catalogue client
(`get_reciters`), item fetch unit (`download_surah` together with
`download_with_progress`, `verify_download`) and the orchestrator's
fan-out (`fanOut` / `runFanOut`).  External effects (network, file
system, clock) are explicit data: a per-item environment records the
outcome the network would produce, and the per-item file-system state
is threaded through the functions.
-/

deriving instance DecidableEq for Except

namespace QuranDl

/-- Python whitespace characters recognised by str.strip and int(). -/
def isPySpace (c : Char) : Bool :=
  c = ' ' || c = '\t' || c = '\n' || c = '\r' || c = '\x0b' || c = '\x0c'

/-- ASCII lower-casing of one character, as Python str.lower does on ASCII. -/
def pyLowerChar (c : Char) : Char :=
  if 'A' ≤ c ∧ c ≤ 'Z' then Char.ofNat (c.toNat + 32) else c

/-- Python str.lower (ASCII fragment). -/
def pyLower (s : String) : String := ⟨s.toList.map pyLowerChar⟩

/-- Python str.strip: remove leading and trailing whitespace. -/
def pyStrip (s : String) : String :=
  ⟨((s.toList.dropWhile isPySpace).reverse.dropWhile isPySpace).reverse⟩

/-- Digit run accepted by Python int(): digits, with single underscores
allowed between digits.  The Bool records that the previous character
was an underscore (so the next one must be a digit). -/
def digitsAux : List Char → Bool → Nat → Option Nat
  | [], afterUnd, acc => if afterUnd then none else some acc
  | c :: cs, afterUnd, acc =>
    if c.isDigit then digitsAux cs false (acc * 10 + (c.toNat - 48))
    else if c = '_' && !afterUnd then digitsAux cs true acc
    else none

/-- Unsigned part of Python int(): a nonempty digit run. -/
def unsignedDigits (l : List Char) : Option Int :=
  match l with
  | [] => none
  | c :: _ => if c.isDigit then (digitsAux l false 0).map Int.ofNat else none

/-- Python int() on an already stripped character list: optional sign, digits. -/
def pyIntCore (l : List Char) : Option Int :=
  match l with
  | [] => none
  | c :: rest =>
    if c = '+' then unsignedDigits rest
    else if c = '-' then (unsignedDigits rest).map (fun n => -n)
    else unsignedDigits l

/-- Python int(str): strip whitespace, optional sign, digit run. -/
def pyInt (s : String) : Option Int := pyIntCore (pyStrip s).toList

/-- Prepend a character to the first chunk of a chunk list
(helper for `splitOnChar`). -/
def consHead (x : Char) : List (List Char) → List (List Char)
  | [] => [[x]]
  | t :: ts => (x :: t) :: ts

/-- Python str.split(sep) for a one-character separator: split at every
occurrence, keeping empty chunks. -/
def splitOnChar (c : Char) : List Char → List (List Char)
  | [] => [[]]
  | x :: xs =>
    if x = c then [] :: splitOnChar c xs
    else consHead x (splitOnChar c xs)

/-- Python list(range(a, b+1)): the inclusive integer range a..b. -/
def intRange (a b : Int) : List Int :=
  (List.range (b + 1 - a).toNat).map (fun i => a + Int.ofNat i)

/-- int() applied to every token of a comma list; fails if any token fails
(models the set comprehension over int(s.strip())). -/
def mapPyInt : List (List Char) → Option (List Int)
  | [] => some []
  | t :: ts =>
    match pyInt (String.mk t), mapPyInt ts with
    | some v, some vs => some (v :: vs)
    | _, _ => none

/-- QuranDownloader.parse_surah_selection: parse a selection string into a
list of surah numbers, or raise ValueError (modelled as `.error`). -/
def parse_surah_selection (selection : String) : Except String (List Int) :=
  if pyLower selection = "all" then
    .ok (intRange 1 114)
  else if selection.toList.contains '-' then
    match splitOnChar '-' selection.toList with
    | [sa, sb] =>
      match pyInt (String.mk sa), pyInt (String.mk sb) with
      | some a, some b =>
        if 1 ≤ a ∧ a ≤ b ∧ b ≤ 114 then .ok (intRange a b)
        else .error "Invalid range format: Range must be between 1 and 114"
      | _, _ => .error "Invalid range format: invalid literal for int"
    | _ => .error "Invalid range format: wrong number of values to unpack"
  else if selection.toList.contains ',' then
    match mapPyInt ((splitOnChar ',' selection.toList).filter
        (fun t => !((pyStrip (String.mk t)).toList.isEmpty))) with
    | some vals =>
      if (vals.dedup).all (fun s => decide (1 ≤ s ∧ s ≤ 114)) then
        .ok (List.insertionSort (fun a b => a ≤ b) vals.dedup)
      else .error "Invalid list format: All numbers must be between 1 and 114"
    | none => .error "Invalid list format: invalid literal for int"
  else
    match pyInt selection with
    | some a =>
      if 1 ≤ a ∧ a ≤ 114 then .ok [a]
      else .error "Invalid surah number: Surah number must be between 1 and 114"
    | none => .error "Invalid surah number: invalid literal for int"

/-! ## Catalogue client (QuranDownloader.get_reciters) -/

/-- One reciter record of the remote catalogue. -/
structure Reciter where
  id : String
  name : String
  language : String
deriving DecidableEq

/-- The in-memory catalogue cache (reciters_cache, reciters_cache_time). -/
structure CatalogueState where
  cache : Option (List Reciter)
  cacheTime : Nat
deriving DecidableEq

/-- QuranDownloader.get_reciters.  The remote call (requests.get +
raise_for_status + json decoding) is summarised by `remote`: `.error`
covers a connection error, a non-2xx status and a decode failure alike.
Returns the updated cache state and the reciter list; note that on a
remote error the function returns the empty list, it has no failure
channel. -/
def get_reciters (forceRefresh : Bool) (now cacheExpiry : Nat)
    (remote : Except String (List Reciter)) (st : CatalogueState) :
    CatalogueState × List Reciter :=
  if !forceRefresh && !(st.cache.getD []).isEmpty
      && decide (now - st.cacheTime < cacheExpiry) then
    (st, st.cache.getD [])
  else
    match remote with
    | .ok rs =>
      let sortedRs := List.insertionSort
        (fun a b => pyLower a.name ≤ pyLower b.name) rs
      ({ cache := some sortedRs, cacheTime := now }, sortedRs)
    | .error _ => (st, [])

/-! ## Item fetch unit (QuranDownloader._download_surah) -/

/-- Per-item outcome dictionary built by _download_surah.  `size` and
`message` model the extra keys the code adds on success. -/
structure FetchResult where
  surah : Int
  success : Bool
  path : Option String
  error : Option String
  attempts : Nat
  size : Option Nat
  message : Option String
deriving DecidableEq

/-- The file-system state an item's fetch touches: its destination file,
its temporary sibling (.tmp), and whether the reciter directory exists.
File contents are byte lists. -/
structure ItemFS where
  finalFile : Option (List Nat)
  tempFile : Option (List Nat)
  dirExists : Bool
deriving DecidableEq

/-- What the network does on one streamed GET (requests.get + iter_content):
fail before any byte is written, fail after writing a prefix, or deliver
the whole stream. -/
inductive TransferOutcome where
  | connFail (msg : String)
  | streamFail (written : List Nat) (msg : String)
  | ok (bytes : List Nat)
deriving DecidableEq

/-- The external world of one _download_surah call: the result of
os.makedirs, the remote metadata (_get_remote_file_info: declared size
and optional content-md5), and the streamed-GET outcome of each attempt
(1-based). -/
structure ItemEnv where
  mkdir : Except String Unit
  headInfo : Except String (Nat × Option Nat)
  transfer : Nat → TransferOutcome

/-- Events recorded while fetching one item: the HTTP request of each
attempt (with its optional Range offset) and the backoff sleeps. -/
inductive Ev where
  | req (attempt : Nat) (range : Option Nat)
  | sleep (n : Nat)
deriving DecidableEq

/-- QuranDownloader._verify_download: the file must exist, its size must
equal the declared size, and when a remote checksum is present the local
checksum must match it. -/
def verify_download (md5 : List Nat → Nat) (file : Option (List Nat))
    (originalSize : Nat) (remoteHash : Option Nat) : Bool :=
  match file with
  | none => false
  | some bs =>
    if bs.length ≠ originalSize then false
    else
      match remoteHash with
      | some h => md5 bs == h
      | none => true

/-- Result of one QuranDownloader._download_with_progress call: the
request it issued (`none` = plain GET, `some n` = Range from byte n),
the file-system state it leaves, and its return-or-raise. -/
structure TransferStep where
  request : Option Nat
  fs : ItemFS
  result : Except String Bool
deriving DecidableEq

/-- QuranDownloader._download_with_progress.  Resumes from the temporary
file's byte length when it is nonzero; appends streamed bytes to the
temporary file; on an exception it deletes the temporary file only when
the attempt was not a resume, then re-raises. -/
def download_with_progress (outcome : TransferOutcome) (fs : ItemFS) :
    TransferStep :=
  let resume : Nat := match fs.tempFile with
    | some bs => bs.length
    | none => 0
  let request : Option Nat := if resume ≠ 0 then some resume else none
  match outcome with
  | .connFail msg =>
    let fs1 := if fs.tempFile.isSome ∧ resume = 0 then
        { fs with tempFile := none } else fs
    ⟨request, fs1, .error msg⟩
  | .streamFail written msg =>
    let base := if resume ≠ 0 then fs.tempFile.getD [] else []
    let fs1 := if resume = 0 then { fs with tempFile := none }
      else { fs with tempFile := some (base ++ written) }
    ⟨request, fs1, .error msg⟩
  | .ok bytes =>
    let base := if resume ≠ 0 then fs.tempFile.getD [] else []
    ⟨request, { fs with tempFile := some (base ++ bytes) }, .ok true⟩

/-- The retry loop of _download_surah (for attempt in 1..max_retries).
`k` is the number of attempts left, `attempt` the 1-based index of the
next attempt.  Returns the final result dictionary, file-system state
and event trace. -/
def downloadLoop (md5 : List Nat → Nat) (env : ItemEnv) (size : Nat)
    (rhash : Option Nat) (filepath : String) :
    Nat → Nat → FetchResult → ItemFS → List Ev →
    FetchResult × ItemFS × List Ev
  | 0, _, res, fs, tr => (res, fs, tr)
  | k + 1, attempt, res, fs, tr =>
    let res1 := { res with attempts := attempt }
    let step := download_with_progress (env.transfer attempt) fs
    let tr1 := tr ++ [Ev.req attempt step.request]
    match step.result with
    | .ok _ =>
      if verify_download md5 step.fs.tempFile size rhash then
        ({ res1 with
             success := true
             path := some filepath
             size := some size },
         { step.fs with finalFile := step.fs.tempFile, tempFile := none },
         tr1)
      else
        downloadLoop md5 env size rhash filepath k (attempt + 1) res1
          { step.fs with tempFile := none } (tr1 ++ [Ev.sleep 1])
    | .error msg =>
      downloadLoop md5 env size rhash filepath k (attempt + 1)
        { res1 with error := some msg } step.fs (tr1 ++ [Ev.sleep 1])

/-- Characters stripped from the reciter name before it is used as a
directory name (re.sub pattern). -/
def reservedChars : List Char := ['\\', '/', '*', '?', ':', '"', '<', '>', '|']

/-- sanitize: strip filesystem-reserved characters from the display name. -/
def sanitize (s : String) : String :=
  ⟨s.toList.filter (fun c => !(reservedChars.contains c))⟩

/-- Zero-padded 3-digit rendering of the surah number (f-string 03d). -/
def pad3 (n : Int) : String :=
  if n < 10 then "00" ++ toString n
  else if n < 100 then "0" ++ toString n
  else toString n

/-- The identifiers special-cased to the alternate `_mp3` URL segment. -/
def altSegmentIds : List String :=
  ["alafasy", "abdulbasitmurattal", "misharyrashidalfasy"]

/-- URL path segment chosen from the reciter identifier. -/
def path_segment (rid : String) : String :=
  if altSegmentIds.contains rid then "_mp3" else "mp3"

/-- Download URL of one surah for one reciter. -/
def download_url (reciter : Reciter) (surah : Int) : String :=
  "https://download.quranicaudio.com/quran/" ++ reciter.id ++ "/"
    ++ path_segment reciter.id ++ "/" ++ pad3 surah ++ ".mp3"

/-- Destination path of one surah (output_dir/safe_reciter_name/NNN.mp3). -/
def surahFilepath (outputDir : String) (reciter : Reciter) (surah : Int) :
    String :=
  outputDir ++ "/" ++ sanitize reciter.name ++ "/" ++ pad3 surah ++ ".mp3"

/-- QuranDownloader._download_surah.  The `.error` result models an
exception escaping the function: the only operation outside every
try block is os.makedirs, so only `env.mkdir` can produce it. -/
def download_surah (md5 : List Nat → Nat) (env : ItemEnv)
    (maxRetries : Nat) (reciter : Reciter) (surah : Int)
    (outputDir : String) (fs : ItemFS) :
    Except String (FetchResult × ItemFS × List Ev) :=
  let res0 : FetchResult :=
    { surah := surah, success := false, path := none, error := none,
      attempts := 0, size := none, message := none }
  match env.mkdir with
  | .error e => .error e
  | .ok _ =>
    let fs0 := { fs with dirExists := true }
    let filepath := surahFilepath outputDir reciter surah
    let fast : Option (FetchResult × ItemFS × List Ev) :=
      if fs0.finalFile.isSome then
        match env.headInfo with
        | .ok (origSize, rhash) =>
          if verify_download md5 fs0.finalFile origSize rhash then
            some ({ res0 with
                     success := true
                     path := some filepath
                     size := some origSize
                     message := some "Already downloaded and verified" },
                  fs0, [])
          else none
        | .error _ => none
      else none
    match fast with
    | some r => .ok r
    | none =>
      match env.headInfo with
      | .error e =>
        .ok ({ res0 with error := some ("Failed to get file info: " ++ e) },
             fs0, [])
      | .ok (origSize, rhash) =>
        if origSize = 0 then
          .ok ({ res0 with error := some "Invalid file size (0 bytes)" },
               fs0, [])
        else
          .ok (downloadLoop md5 env origSize rhash filepath maxRetries 1
                res0 fs0 [])

/-! ## Download orchestrator fan-out (QuranDownloader.download) -/

/-- The aggregate summary dictionary built by download. -/
structure Summary where
  reciter : Option String
  total : Nat
  success : Nat
  failed : Nat
  errors : List String
  outputDir : String
deriving DecidableEq

/-- Processing of one completed future in the fan-out loop: a returned
result increments success or failed (with its error string, or
"Unknown error" when the error field is empty), a raised exception
increments failed. -/
def collectOne (s : Summary) (surah : Int)
    (outcome : Except String FetchResult) : Summary :=
  match outcome with
  | .ok r =>
    if r.success then { s with success := s.success + 1 }
    else
      { s with
        failed := s.failed + 1
        errors := s.errors ++ ["Surah " ++ toString surah ++ " - " ++
          (match r.error with
           | some e => if e = "" then "Unknown error" else e
           | none => "Unknown error")] }
  | .error e =>
    { s with
      failed := s.failed + 1
      errors := s.errors ++
        ["Surah " ++ toString surah ++ " - Error: " ++ e] }

/-- The as_completed collection loop: fold `collectOne` over the
completion order. -/
def fanOut (itemOutcome : Int → Except String FetchResult)
    (order : List Int) (s : Summary) : Summary :=
  order.foldl (fun acc n => collectOne acc n (itemOutcome n)) s

/-- The summary as initialised before the fan-out, with
total = len(surahs_to_download). -/
def initSummary (reciterName outputDir : String) (surahs : List Int) :
    Summary :=
  { reciter := some reciterName, total := surahs.length, success := 0,
    failed := 0, errors := [], outputDir := outputDir }

/-- The fan-out phase of QuranDownloader.download: one future per
requested surah, results collected in completion order `order`. -/
def runFanOut (itemOutcome : Int → Except String FetchResult)
    (reciterName outputDir : String) (surahs order : List Int) : Summary :=
  fanOut itemOutcome order (initSummary reciterName outputDir surahs)

/-- Whether the fan-out counts an item as a success. -/
def outcomeSucc (itemOutcome : Int → Except String FetchResult)
    (n : Int) : Bool :=
  match itemOutcome n with
  | .ok r => r.success
  | .error _ => false

/-! ## Concrete fixtures used by witnesses and counterexamples -/

/-- A concrete stand-in for the MD5 function (the development's theorems
hold for every checksum function; witnesses need an executable one). -/
def md5c : List Nat → Nat := fun bs => bs.foldl (fun a b => a + b) 0

/-- A concrete reciter record. -/
def recA : Reciter := ⟨"test1", "Test Reciter 1", "english"⟩

/-- Environment whose streamed transfers always deliver a 3-byte body
although the declared size is 5: every verification fails. -/
def envShort : ItemEnv :=
  ⟨.ok (), .ok (5, none), fun _ => .ok [1, 2, 3]⟩

/-- Environment whose directory creation raises. -/
def envMkdirFail : ItemEnv :=
  ⟨.error "Permission denied", .ok (5, none), fun _ => .ok [1, 2, 3, 4, 5]⟩

/-- Environment that succeeds with a 5-byte body matching the declared
size. -/
def envOk : ItemEnv :=
  ⟨.ok (), .ok (5, none), fun _ => .ok [1, 2, 3, 4, 5]⟩

/-- Environment for the fast path: remote declares size 3 and checksum
6 = md5c [1, 2, 3]. -/
def envFast : ItemEnv :=
  ⟨.ok (), .ok (3, some 6), fun _ => .ok [1, 2, 3]⟩

/-- Environment whose every transfer fails in transit. -/
def envConnFail : ItemEnv :=
  ⟨.ok (), .ok (5, none), fun _ => .connFail "Connection reset"⟩

/-- An empty per-item file-system state. -/
def fsEmpty : ItemFS := ⟨none, none, false⟩

example : parse_surah_selection "10-12" = .ok [10, 11, 12] := by decide
example : parse_surah_selection "3,1,2,1" = .ok [1, 2, 3] := by decide
example : parse_surah_selection "7" = .ok [7] := by decide
example : (parse_surah_selection "5-3").isOk = false := by decide
example : (parse_surah_selection "abc").isOk = false := by decide
example : (parse_surah_selection "").isOk = false := by decide
example : (parse_surah_selection "0").isOk = false := by decide
example : (parse_surah_selection "115").isOk = false := by decide
example : parse_surah_selection "," = .ok [] := by decide
example : parse_surah_selection " , " = .ok [] := by decide
example : parse_surah_selection "ALL" = .ok (intRange 1 114) := by decide
example : parse_surah_selection "all" = .ok (intRange 1 114) := by decide

example :
    download_surah md5c envShort 3 recA 1 "out" fsEmpty =
      .ok ({ surah := 1, success := false, path := none, error := none,
             attempts := 3, size := none, message := none },
           ⟨none, none, true⟩,
           [Ev.req 1 none, Ev.sleep 1, Ev.req 2 none, Ev.sleep 1,
            Ev.req 3 none, Ev.sleep 1]) := by decide

example :
    download_surah md5c envMkdirFail 3 recA 1 "out" fsEmpty =
      .error "Permission denied" := by decide

example :
    download_surah md5c envOk 3 recA 1 "out" fsEmpty =
      .ok ({ surah := 1, success := true,
             path := some "out/Test Reciter 1/001.mp3", error := none,
             attempts := 1, size := some 5, message := none },
           ⟨some [1, 2, 3, 4, 5], none, true⟩,
           [Ev.req 1 none]) := by decide

example :
    download_surah md5c envFast 3 recA 1 "out"
        ⟨some [1, 2, 3], none, true⟩ =
      .ok ({ surah := 1, success := true,
             path := some "out/Test Reciter 1/001.mp3", error := none,
             attempts := 0, size := some 3,
             message := some "Already downloaded and verified" },
           ⟨some [1, 2, 3], none, true⟩, []) := by decide

example :
    (download_with_progress (.ok [1, 2, 3, 4, 5]) ⟨none, some [], false⟩).request
      = none := by decide

example :
    (download_with_progress (.streamFail [9] "reset") fsEmpty).fs.tempFile
      = none := by decide

example :
    download_with_progress (.streamFail [9] "reset") ⟨none, some [7], false⟩ =
      ⟨some 1, ⟨none, some [7, 9], false⟩, .error "reset"⟩ := by decide

example :
    download_surah md5c envConnFail 2 recA 1 "out" fsEmpty =
      .ok ({ surah := 1, success := false, path := none,
             error := some "Connection reset", attempts := 2, size := none,
             message := none },
           ⟨none, none, true⟩,
           [Ev.req 1 none, Ev.sleep 1, Ev.req 2 none, Ev.sleep 1]) := by
  decide

example :
    get_reciters false 1000 3600 (.error "503 Server Error") ⟨none, 0⟩ =
      (⟨none, 0⟩, []) := by decide

/-! ## Helper lemmas -/

theorem collectOne_total (s : Summary) (n : Int)
    (o : Except String FetchResult) : (collectOne s n o).total = s.total := by
  unfold collectOne
  rcases o with e | r
  · rfl
  · dsimp only
    split <;> rfl

theorem collectOne_counts (s : Summary) (n : Int)
    (o : Except String FetchResult) :
    (collectOne s n o).success + (collectOne s n o).failed
      = s.success + s.failed + 1 := by
  unfold collectOne
  rcases o with e | r
  · dsimp only; omega
  · dsimp only
    split <;> dsimp only <;> omega

theorem fanOut_total (f : Int → Except String FetchResult)
    (order : List Int) (s : Summary) :
    (fanOut f order s).total = s.total := by
  induction order generalizing s with
  | nil => rfl
  | cons n t ih =>
    simp only [fanOut, List.foldl_cons] at *
    rw [ih, collectOne_total]

theorem fanOut_counts (f : Int → Except String FetchResult)
    (order : List Int) (s : Summary) :
    (fanOut f order s).success + (fanOut f order s).failed
      = s.success + s.failed + order.length := by
  induction order generalizing s with
  | nil => simp [fanOut]
  | cons n t ih =>
    simp only [fanOut, List.foldl_cons, List.length_cons] at *
    rw [ih]
    have := collectOne_counts s n (f n)
    omega

theorem collectOne_success (s : Summary) (n : Int)
    (o : Except String FetchResult) :
    (collectOne s n o).success
      = s.success + (if (match o with
          | .ok r => r.success
          | .error _ => false) then 1 else 0) := by
  unfold collectOne
  rcases o with e | r
  · simp
  · dsimp only
    rcases hr : r.success <;> simp [hr]

theorem fanOut_success_count (f : Int → Except String FetchResult)
    (order : List Int) (s : Summary) :
    (fanOut f order s).success
      = s.success + order.countP (fun n => outcomeSucc f n) := by
  induction order generalizing s with
  | nil => simp [fanOut]
  | cons n t ih =>
    simp only [fanOut, List.foldl_cons] at *
    rw [ih, collectOne_success, List.countP_cons]
    unfold outcomeSucc
    rcases ho : f n with e | r
    · simp [ho]
    · rcases hr : r.success <;> simp [ho, hr] <;> omega

theorem collectOne_failed (s : Summary) (n : Int)
    (o : Except String FetchResult) :
    (collectOne s n o).failed
      = s.failed + (if (match o with
          | .ok r => r.success
          | .error _ => false) then 0 else 1) := by
  unfold collectOne
  rcases o with e | r
  · simp
  · dsimp only
    rcases hr : r.success <;> simp [hr]

theorem fanOut_failed_count (f : Int → Except String FetchResult)
    (order : List Int) (s : Summary) :
    (fanOut f order s).failed
      = s.failed + order.countP (fun n => !(outcomeSucc f n)) := by
  induction order generalizing s with
  | nil => simp [fanOut]
  | cons n t ih =>
    simp only [fanOut, List.foldl_cons] at *
    rw [ih, collectOne_failed, List.countP_cons]
    unfold outcomeSucc
    rcases ho : f n with e | r
    · simp [ho]; omega
    · rcases hr : r.success <;> simp [ho, hr] <;> omega

/-! ## Claim theorems: orchestrator counting (C1) -/

/-- C1: for every invocation that reaches item fan-out, the summary
satisfies success + failed == total: each requested item contributes
exactly one result, counted exactly once as success or failure
(whatever completion order the pool produces). -/
theorem c1_summary_success_plus_failed_eq_total
    (itemOutcome : Int → Except String FetchResult)
    (reciterName outputDir : String) (surahs order : List Int)
    (h : order.Perm surahs) :
    (runFanOut itemOutcome reciterName outputDir surahs order).success
      + (runFanOut itemOutcome reciterName outputDir surahs order).failed
      = (runFanOut itemOutcome reciterName outputDir surahs order).total := by
  unfold runFanOut
  rw [fanOut_total, fanOut_counts]
  simp [initSummary, h.length_eq]

/-- Witness for C1 at a concrete outcome function and item set. -/
theorem c1_witness :
    (runFanOut (fun n => if n = 1 then .error "boom"
        else .ok { surah := n, success := true, path := some "p",
                   error := none, attempts := 1, size := none,
                   message := none })
      "R" "out" [1, 2, 3] [3, 1, 2]).success
    + (runFanOut (fun n => if n = 1 then .error "boom"
        else .ok { surah := n, success := true, path := some "p",
                   error := none, attempts := 1, size := none,
                   message := none })
      "R" "out" [1, 2, 3] [3, 1, 2]).failed
    = (runFanOut (fun n => if n = 1 then .error "boom"
        else .ok { surah := n, success := true, path := some "p",
                   error := none, attempts := 1, size := none,
                   message := none })
      "R" "out" [1, 2, 3] [3, 1, 2]).total :=
  c1_summary_success_plus_failed_eq_total _ "R" "out" [1, 2, 3] [3, 1, 2]
    (by decide)

/-! ## Claim theorems: catalogue client (C3) -/

/-- C3 counterexample: when the remote catalogue call errors, get_reciters
does not fail — it returns the ordinary empty catalogue value. -/
theorem c3_counterexample_empty_catalogue :
    get_reciters false 1000 3600 (.error "503 Server Error") ⟨none, 0⟩
      = (⟨none, 0⟩, []) := by decide

/-- C3 amended: whenever the cached catalogue cannot be served (cache
empty, expired, or refresh forced) and the remote call errors or returns
a non-success status, get_reciters returns the empty catalogue with the
cache state unchanged, instead of failing. -/
theorem c3_amended_error_returns_empty
    (forceRefresh : Bool) (now cacheExpiry : Nat) (e : String)
    (st : CatalogueState)
    (h : (!forceRefresh && !(st.cache.getD []).isEmpty
          && decide (now - st.cacheTime < cacheExpiry)) = false) :
    get_reciters forceRefresh now cacheExpiry (.error e) st = (st, []) := by
  unfold get_reciters
  rw [if_neg]
  simp [h]

/-- Witness for C3 amended at a concrete cache state. -/
theorem c3_witness :
    get_reciters true 0 3600 (.error "connection refused") ⟨none, 0⟩
      = (⟨none, 0⟩, []) :=
  c3_amended_error_returns_empty true 0 3600 "connection refused" ⟨none, 0⟩
    (by decide)

/-! ## Claim theorems: item failure isolation (C2) -/

/-- C2 counterexample: a directory-creation failure (os.makedirs is
outside every try block) escapes _download_surah as an exception instead
of being captured into the FetchResult. -/
theorem c2_counterexample_mkdir_raises :
    download_surah md5c envMkdirFail 3 recA 1 "out" fsEmpty
      = .error "Permission denied" := by decide

/-- C2 amended: _download_surah captures every failure mode after
directory creation into the returned FetchResult (it can only raise when
os.makedirs fails), and the orchestrator's fan-out catches per-item
exceptions, so any item's failure — captured or raised — is counted in
the summary (success counts exactly the successful outcomes, failed
counts all the others) and never aborts the invocation. -/
theorem c2_amended_isolation :
    (∀ (md5 : List Nat → Nat) (env : ItemEnv) (maxRetries : Nat)
        (reciter : Reciter) (surah : Int) (outputDir : String) (fs : ItemFS),
      env.mkdir = .ok () →
      (download_surah md5 env maxRetries reciter surah outputDir fs).isOk
        = true)
    ∧ (∀ (itemOutcome : Int → Except String FetchResult)
        (reciterName outputDir : String) (surahs order : List Int),
      (runFanOut itemOutcome reciterName outputDir surahs order).success
        = order.countP (fun n => outcomeSucc itemOutcome n)
      ∧ (runFanOut itemOutcome reciterName outputDir surahs order).failed
        = order.countP (fun n => !(outcomeSucc itemOutcome n))) := by
  constructor
  · intro md5 env mR reciter surah outdir fs hmk
    simp only [download_surah, hmk]
    split
    · rfl
    · split
      · rfl
      · split <;> rfl
  · intro f rname outdir surahs order
    constructor
    · rw [runFanOut, fanOut_success_count]
      simp [initSummary]
    · rw [runFanOut, fanOut_failed_count]
      simp [initSummary]

/-- Witness for C2 amended at a concrete environment and fan-out. -/
theorem c2_witness :
    (download_surah md5c envOk 3 recA 1 "out" fsEmpty).isOk = true :=
  c2_amended_isolation.1 md5c envOk 3 recA 1 "out" fsEmpty rfl

/-! ## Claim theorems: fast path and idempotence (C6) -/

theorem verify_download_of_valid (md5 : List Nat → Nat) (bs : List Nat)
    (size : Nat) (rhash : Option Nat) (hlen : bs.length = size)
    (hhash : ∀ hv, rhash = some hv → md5 bs = hv) :
    verify_download md5 (some bs) size rhash = true := by
  unfold verify_download
  dsimp only
  rw [if_neg (by simp [hlen])]
  rcases rhash with _ | hv
  · rfl
  · simp [hhash hv rfl]

theorem download_surah_fast_path (md5 : List Nat → Nat) (env : ItemEnv)
    (maxRetries : Nat) (reciter : Reciter) (surah : Int)
    (outputDir : String) (fs : ItemFS) (bs : List Nat) (size : Nat)
    (rhash : Option Nat) (hdir : fs.dirExists = true)
    (hmk : env.mkdir = .ok ()) (hfile : fs.finalFile = some bs)
    (hinfo : env.headInfo = .ok (size, rhash)) (hlen : bs.length = size)
    (hhash : ∀ hv, rhash = some hv → md5 bs = hv) :
    download_surah md5 env maxRetries reciter surah outputDir fs =
      .ok ({ surah := surah, success := true,
             path := some (surahFilepath outputDir reciter surah),
             error := none, attempts := 0, size := some size,
             message := some "Already downloaded and verified" },
           fs, []) := by
  obtain ⟨ff, tf, dir⟩ := fs
  simp only at hdir hfile
  subst hdir
  subst hfile
  simp only [download_surah, hmk, hinfo, Option.isSome_some, if_true,
    verify_download_of_valid md5 bs size rhash hlen hhash]

/-- C6: if a destination file exists whose size equals the remote's
declared size (and whose checksum matches when one is declared), the
fetch reports success immediately with attempt count 0; hence a second
orchestrator run over an already correctly downloaded set yields
attempts == 0 for every item, leaves each item's files unchanged, and
issues no transfer request. -/
theorem c6_fast_path_idempotent (md5 : List Nat → Nat)
    (envs : Int → ItemEnv) (maxRetries : Nat) (reciter : Reciter)
    (outputDir : String) (fss : Int → ItemFS) (order : List Int)
    (h : ∀ s ∈ order, (fss s).dirExists = true
      ∧ (envs s).mkdir = .ok ()
      ∧ ∃ bs size rhash, (fss s).finalFile = some bs
          ∧ (envs s).headInfo = .ok (size, rhash)
          ∧ bs.length = size
          ∧ (∀ hv, rhash = some hv → md5 bs = hv)) :
    ∀ s ∈ order, ∃ size,
      download_surah md5 (envs s) maxRetries reciter s outputDir (fss s)
        = .ok ({ surah := s, success := true,
                 path := some (surahFilepath outputDir reciter s),
                 error := none, attempts := 0, size := some size,
                 message := some "Already downloaded and verified" },
               fss s, []) := by
  intro s hs
  obtain ⟨hdir, hmk, bs, size, rhash, hfile, hinfo, hlen, hhash⟩ := h s hs
  exact ⟨size, download_surah_fast_path md5 (envs s) maxRetries reciter s
    outputDir (fss s) bs size rhash hdir hmk hfile hinfo hlen hhash⟩

/-- Witness for C6 at a concrete already-downloaded state. -/
theorem c6_witness :
    ∃ size,
      download_surah md5c envFast 3 recA 1 "out" ⟨some [1, 2, 3], none, true⟩
        = .ok ({ surah := 1, success := true,
                 path := some (surahFilepath "out" recA 1),
                 error := none, attempts := 0, size := some size,
                 message := some "Already downloaded and verified" },
               ⟨some [1, 2, 3], none, true⟩, []) :=
  c6_fast_path_idempotent md5c (fun _ => envFast) 3 recA "out"
    (fun _ => ⟨some [1, 2, 3], none, true⟩) [1]
    (by
      intro s hs
      refine ⟨rfl, rfl, [1, 2, 3], 3, some 6, rfl, rfl, rfl, ?_⟩
      intro hv hEq
      cases hEq
      decide)
    1 (by decide)

/-! ## Claim theorems: resume and published size (C7) -/

/-- C7 counterexample: a 0-byte temporary file exists (0 bytes < declared
size 5), yet the request issued is a plain GET, not a byte-range request
starting at 0 (the code treats a zero resume offset as no resume). -/
theorem c7_counterexample_zero_byte_temp :
    (download_with_progress (.ok [1, 2, 3, 4, 5])
      ⟨none, some [], false⟩).request = none := by decide

theorem download_with_progress_resume_request (outcome : TransferOutcome)
    (fs : ItemFS) (bs : List Nat) (h1 : fs.tempFile = some bs)
    (h2 : bs ≠ []) :
    (download_with_progress outcome fs).request = some bs.length := by
  have hlen : ¬(bs.length = 0) := by simpa using h2
  rcases outcome with msg | ⟨w, msg⟩ | bytes <;>
    simp [download_with_progress, h1, hlen]

theorem verify_download_length (md5 : List Nat → Nat)
    (file : Option (List Nat)) (size : Nat) (rhash : Option Nat)
    (h : verify_download md5 file size rhash = true) :
    ∃ bs, file = some bs ∧ bs.length = size := by
  unfold verify_download at h
  rcases file with _ | bs
  · exact absurd h (by simp)
  · refine ⟨bs, rfl, ?_⟩
    dsimp only at h
    by_contra hne
    rw [if_pos hne] at h
    exact absurd h (by simp)

theorem downloadLoop_success_final_size (md5 : List Nat → Nat)
    (env : ItemEnv) (size : Nat) (rhash : Option Nat) (fp : String) :
    ∀ (k attempt : Nat) (res : FetchResult) (fs : ItemFS) (tr : List Ev)
      (r : FetchResult) (fs2 : ItemFS) (tr2 : List Ev),
      downloadLoop md5 env size rhash fp k attempt res fs tr
        = (r, fs2, tr2) →
      res.success = false → r.success = true →
      ∃ bs, fs2.finalFile = some bs ∧ bs.length = size := by
  intro k
  induction k with
  | zero =>
    intro attempt res fs tr r fs2 tr2 heq hres hsucc
    rw [downloadLoop] at heq
    simp only [Prod.mk.injEq] at heq
    obtain ⟨rfl, rfl, rfl⟩ := heq
    exact absurd hsucc (by simp [hres])
  | succ k ih =>
    intro attempt res fs tr r fs2 tr2 heq hres hsucc
    rw [downloadLoop] at heq
    dsimp only at heq
    split at heq
    · split at heq
      · rename_i hverify
        obtain ⟨bs, hbs, hlen⟩ := verify_download_length md5 _ size rhash
          hverify
        simp only [Prod.mk.injEq] at heq
        obtain ⟨-, h2, -⟩ := heq
        subst h2
        exact ⟨bs, by simpa using hbs, hlen⟩
      · exact ih _ _ _ _ _ _ _ heq (by simpa using hres) hsucc
    · exact ih _ _ _ _ _ _ _ heq (by simpa using hres) hsucc

theorem download_surah_success_size (md5 : List Nat → Nat) (env : ItemEnv)
    (mR : Nat) (reciter : Reciter) (surah : Int) (outdir : String)
    (fs : ItemFS) (r : FetchResult) (fs2 : ItemFS) (tr : List Ev)
    (size : Nat) (rhash : Option Nat)
    (hinfo : env.headInfo = .ok (size, rhash))
    (heq : download_surah md5 env mR reciter surah outdir fs
      = .ok (r, fs2, tr))
    (hs : r.success = true) :
    ∃ bs, fs2.finalFile = some bs ∧ bs.length = size := by
  rcases hmk : env.mkdir with e | u
  · rw [download_surah, hmk] at heq
    exact absurd heq (by simp)
  · simp only [download_surah, hmk, hinfo] at heq
    split at heq
    · rename_i r' hfast
      injection heq with heq2
      subst heq2
      split at hfast
      · split at hfast
        · rename_i hverify
          obtain ⟨bs, hbs, hlen⟩ := verify_download_length md5 _ size rhash
            hverify
          simp only [Option.some.injEq, Prod.mk.injEq] at hfast
          obtain ⟨-, h2, -⟩ := hfast
          subst h2
          exact ⟨bs, by simpa using hbs, hlen⟩
        · exact absurd hfast (by simp)
      · exact absurd hfast (by simp)
    · split at heq
      · injection heq with h
        simp only [Prod.mk.injEq] at h
        obtain ⟨h1, -⟩ := h
        rw [← h1] at hs
        exact absurd hs (by simp)
      · injection heq with h
        exact downloadLoop_success_final_size md5 env size rhash _ _ _ _ _ _
          _ _ _ h rfl hs

/-- C7 amended: whenever a nonempty temporary file of N bytes exists
before a fetch attempt, the request issued is a byte-range request
starting at byte N (for a 0-byte temporary file the request is a plain
GET); and whenever a fetch reports success, the published destination
file's size equals the remote's declared total (the temporary file is
renamed into place only after size verification). -/
theorem c7_amended_resume_range :
    (∀ (outcome : TransferOutcome) (fs : ItemFS) (bs : List Nat),
      fs.tempFile = some bs → bs ≠ [] →
      (download_with_progress outcome fs).request = some bs.length)
    ∧ (∀ (md5 : List Nat → Nat) (env : ItemEnv) (mR : Nat)
        (reciter : Reciter) (surah : Int) (outdir : String) (fs : ItemFS)
        (r : FetchResult) (fs2 : ItemFS) (tr : List Ev) (size : Nat)
        (rhash : Option Nat),
      env.headInfo = .ok (size, rhash) →
      download_surah md5 env mR reciter surah outdir fs = .ok (r, fs2, tr) →
      r.success = true →
      ∃ bs, fs2.finalFile = some bs ∧ bs.length = size) :=
  ⟨download_with_progress_resume_request,
   fun md5 env mR reciter surah outdir fs r fs2 tr size rhash hinfo heq hs =>
     download_surah_success_size md5 env mR reciter surah outdir fs r fs2 tr
       size rhash hinfo heq hs⟩

/-- Witness for C7 amended: a 2-byte temporary file produces a range
request from byte 2, and a successful run publishes a file of the
declared size. -/
theorem c7_witness :
    (download_with_progress (.ok [3, 4, 5])
      ⟨none, some [1, 2], false⟩).request = some 2
    ∧ ∃ bs, (⟨some [1, 2, 3, 4, 5], none, true⟩ : ItemFS).finalFile
        = some bs ∧ bs.length = 5 :=
  ⟨c7_amended_resume_range.1 (.ok [3, 4, 5]) ⟨none, some [1, 2], false⟩
     [1, 2] rfl (by decide),
   c7_amended_resume_range.2 md5c envOk 3 recA 1 "out" fsEmpty
     { surah := 1, success := true,
       path := some "out/Test Reciter 1/001.mp3", error := none,
       attempts := 1, size := some 5, message := none }
     ⟨some [1, 2, 3, 4, 5], none, true⟩ [Ev.req 1 none] 5 none rfl
     (by decide) rfl⟩

/-- An initial per-item result dictionary, used by concrete witnesses. -/
def res0c : FetchResult :=
  ⟨1, false, none, none, 0, none, none⟩

/-! ## Claim theorems: transport errors and the temporary file (C8) -/

/-- C8 counterexample: a transport error interrupts a fresh (non-resumed)
streamed attempt after 1 byte was written, and the temporary file is
deleted, not left intact (the handler removes it whenever the attempt
did not start from a nonzero resume offset). -/
theorem c8_counterexample_fresh_temp_deleted :
    (download_with_progress (.streamFail [9] "Connection reset")
      fsEmpty).fs.tempFile = none := by decide

/-- C8 amended: whenever a transport error interrupts a resumed streamed
attempt (the temporary file was nonempty, so the attempt started from a
nonzero byte offset), the temporary file is left intact on disk — kept
unchanged on a connection failure, extended by the bytes already
streamed on a mid-stream failure — and the loop proceeds to the next
attempt (when attempts remain) after recording a fixed backoff sleep of
1 time unit.  A fresh (non-resumed) attempt's partial temporary file is
instead deleted on transport error. -/
theorem c8_amended_resume_temp_intact (md5 : List Nat → Nat)
    (env : ItemEnv) (size : Nat) (rhash : Option Nat) (fp : String)
    (k attempt : Nat) (res : FetchResult) (fs : ItemFS) (tr : List Ev)
    (bs : List Nat) (htemp : fs.tempFile = some bs) (hne : bs ≠ []) :
    (∀ msg, env.transfer attempt = .connFail msg →
      downloadLoop md5 env size rhash fp (k + 1) attempt res fs tr
        = downloadLoop md5 env size rhash fp k (attempt + 1)
            { res with attempts := attempt, error := some msg } fs
            (tr ++ [Ev.req attempt (some bs.length), Ev.sleep 1]))
    ∧ (∀ written msg, env.transfer attempt = .streamFail written msg →
      downloadLoop md5 env size rhash fp (k + 1) attempt res fs tr
        = downloadLoop md5 env size rhash fp k (attempt + 1)
            { res with attempts := attempt, error := some msg }
            { fs with tempFile := some (bs ++ written) }
            (tr ++ [Ev.req attempt (some bs.length), Ev.sleep 1])) := by
  have hlen : ¬(bs.length = 0) := by simpa using hne
  constructor
  · intro msg htr
    rw [downloadLoop]
    simp only [download_with_progress, htr, htemp, hlen]
    simp [List.append_assoc, hne]
  · intro written msg htr
    rw [downloadLoop]
    simp only [download_with_progress, htr, htemp, hlen]
    simp [List.append_assoc, hne]

/-- Witness for C8 amended: a resumed attempt (1-byte temporary file)
hits a connection failure; the temporary file survives and the loop
continues after a recorded sleep of 1. -/
theorem c8_witness :
    downloadLoop md5c envConnFail 5 none "p" 1 1 res0c
        ⟨none, some [7], false⟩ []
      = downloadLoop md5c envConnFail 5 none "p" 0 2
          { res0c with attempts := 1, error := some "Connection reset" }
          ⟨none, some [7], false⟩ [Ev.req 1 (some 1), Ev.sleep 1] :=
  (c8_amended_resume_temp_intact md5c envConnFail 5 none "p" 0 1 res0c
    ⟨none, some [7], false⟩ [] [7] rfl (by decide)).1 "Connection reset" rfl

/-! ## Claim theorems: result field discipline (C9) -/

/-- C9 counterexample: when every attempt completes its transfer but the
body is shorter than the declared size, all retries exhaust through
verification mismatches and the returned result is a failure
(success = false) whose error description is absent (error = none) —
so "error present iff failed" does not hold. -/
theorem c9_counterexample_error_absent_on_failure :
    download_surah md5c envShort 3 recA 1 "out" fsEmpty =
      .ok ({ surah := 1, success := false, path := none, error := none,
             attempts := 3, size := none, message := none },
           ⟨none, none, true⟩,
           [Ev.req 1 none, Ev.sleep 1, Ev.req 2 none, Ev.sleep 1,
            Ev.req 3 none, Ev.sleep 1]) := by decide

theorem downloadLoop_path_success (md5 : List Nat → Nat) (env : ItemEnv)
    (size : Nat) (rhash : Option Nat) (fp : String) :
    ∀ (k attempt : Nat) (res : FetchResult) (fs : ItemFS) (tr : List Ev)
      (r : FetchResult) (fs2 : ItemFS) (tr2 : List Ev),
      downloadLoop md5 env size rhash fp k attempt res fs tr
        = (r, fs2, tr2) →
      res.path.isSome = res.success →
      r.path.isSome = r.success := by
  intro k
  induction k with
  | zero =>
    intro attempt res fs tr r fs2 tr2 heq hres
    rw [downloadLoop] at heq
    simp only [Prod.mk.injEq] at heq
    obtain ⟨rfl, -, -⟩ := heq
    exact hres
  | succ k ih =>
    intro attempt res fs tr r fs2 tr2 heq hres
    rw [downloadLoop] at heq
    dsimp only at heq
    split at heq
    · split at heq
      · simp only [Prod.mk.injEq] at heq
        obtain ⟨h1, -, -⟩ := heq
        rw [← h1]
        rfl
      · exact ih _ _ _ _ _ _ _ heq (by simpa using hres)
    · exact ih _ _ _ _ _ _ _ heq (by simpa using hres)

theorem downloadLoop_connFail_exhaust (md5 : List Nat → Nat)
    (env : ItemEnv) (size : Nat) (rhash : Option Nat) (fp : String)
    (msg : String) (htr : ∀ i, env.transfer i = .connFail msg) :
    ∀ (k attempt : Nat) (res : FetchResult) (fs : ItemFS) (tr : List Ev),
      ∃ fs2 tr2,
        downloadLoop md5 env size rhash fp (k + 1) attempt res fs tr
          = ({ res with attempts := attempt + k, error := some msg },
             fs2, tr2) := by
  intro k
  induction k with
  | zero =>
    intro attempt res fs tr
    rw [downloadLoop]
    simp only [download_with_progress, htr attempt]
    rw [downloadLoop]
    exact ⟨_, _, rfl⟩
  | succ k ih =>
    intro attempt res fs tr
    rw [downloadLoop]
    simp only [download_with_progress, htr attempt]
    obtain ⟨fs2, tr2, hrec⟩ := ih (attempt + 1)
      { res with attempts := attempt, error := some msg } _ _
    refine ⟨fs2, tr2, ?_⟩
    rw [hrec]
    have : attempt + 1 + k = attempt + (k + 1) := by omega
    rw [this]

/-- C9 amended: every FetchResult returned by _download_surah has its
final path present exactly when the item succeeded; on exhaustion the
result carries the attempt count and the description of the last raised
error, but a failure whose attempts all ended in verification mismatches
(or a pre-loop failure) carries no error description — the orchestrator
then reports it as "Unknown error". -/
theorem c9_amended_result_fields :
    (∀ (md5 : List Nat → Nat) (env : ItemEnv) (mR : Nat)
        (reciter : Reciter) (surah : Int) (outdir : String) (fs : ItemFS)
        (r : FetchResult) (fs2 : ItemFS) (tr : List Ev),
      download_surah md5 env mR reciter surah outdir fs = .ok (r, fs2, tr) →
      r.path.isSome = r.success)
    ∧ (∀ (md5 : List Nat → Nat) (env : ItemEnv) (mR : Nat)
        (reciter : Reciter) (surah : Int) (outdir : String) (fs : ItemFS)
        (size : Nat) (rhash : Option Nat) (msg : String),
      env.mkdir = .ok () → fs.finalFile = none →
      env.headInfo = .ok (size, rhash) → size ≠ 0 →
      (∀ i, env.transfer i = .connFail msg) → 0 < mR →
      ∃ fs2 tr, download_surah md5 env mR reciter surah outdir fs
        = .ok ({ surah := surah, success := false, path := none,
                 error := some msg, attempts := mR, size := none,
                 message := none }, fs2, tr)) := by
  constructor
  · intro md5 env mR reciter surah outdir fs r fs2 tr heq
    rcases hmk : env.mkdir with e | u
    · rw [download_surah, hmk] at heq
      exact absurd heq (by simp)
    · simp only [download_surah, hmk] at heq
      split at heq
      · rename_i r' hfast
        injection heq with heq2
        subst heq2
        split at hfast
        · split at hfast
          · rename_i hinfo2
            split at hfast
            · simp only [Option.some.injEq, Prod.mk.injEq] at hfast
              obtain ⟨h1, -, -⟩ := hfast
              rw [← h1]
              rfl
            · exact absurd hfast (by simp)
          · exact absurd hfast (by simp)
        · exact absurd hfast (by simp)
      · split at heq
        · injection heq with h
          simp only [Prod.mk.injEq] at h
          obtain ⟨h1, -⟩ := h
          rw [← h1]
          rfl
        · split at heq
          · injection heq with h
            simp only [Prod.mk.injEq] at h
            obtain ⟨h1, -⟩ := h
            rw [← h1]
            rfl
          · injection heq with h
            exact downloadLoop_path_success md5 env _ _ _ _ _ _ _ _ _ _ _
              h rfl
  · intro md5 env mR reciter surah outdir fs size rhash msg hmk hfile
      hinfo hsize htr hmR
    obtain ⟨k, rfl⟩ : ∃ k, mR = k + 1 := ⟨mR - 1, by omega⟩
    obtain ⟨fs2, tr2, hloop⟩ := downloadLoop_connFail_exhaust md5 env size
      rhash (surahFilepath outdir reciter surah) msg htr k 1
      { surah := surah, success := false, path := none, error := none,
        attempts := 0, size := none, message := none }
      ⟨none, fs.tempFile, true⟩ []
    refine ⟨fs2, tr2, ?_⟩
    simp only [download_surah, hmk, hinfo, hfile, Option.isSome_none,
      Bool.false_eq_true, if_false, if_neg hsize]
    rw [hloop]
    have h1k : (1 : Nat) + k = k + 1 := by omega
    rw [h1k]

/-- Witness for C9 amended: the successful run has its path present and
success set; the all-transport-failure run exhausts the three attempts
with the last error message recorded. -/
theorem c9_witness :
    ({ surah := 1, success := true,
       path := some "out/Test Reciter 1/001.mp3", error := none,
       attempts := 1, size := some 5,
       message := none } : FetchResult).path.isSome
      = ({ surah := 1, success := true,
           path := some "out/Test Reciter 1/001.mp3", error := none,
           attempts := 1, size := some 5,
           message := none } : FetchResult).success
    ∧ ∃ fs2 tr, download_surah md5c envConnFail 3 recA 1 "out" fsEmpty
        = .ok ({ surah := 1, success := false, path := none,
                 error := some "Connection reset", attempts := 3,
                 size := none, message := none }, fs2, tr) :=
  ⟨c9_amended_result_fields.1 md5c envOk 3 recA 1 "out" fsEmpty _
     ⟨some [1, 2, 3, 4, 5], none, true⟩ [Ev.req 1 none] (by decide),
   c9_amended_result_fields.2 md5c envConnFail 3 recA 1 "out" fsEmpty 5
     none "Connection reset" rfl rfl rfl (by decide) (fun i => rfl)
     (by decide)⟩

/-! ## String and parser helper lemmas -/

theorem toList_mk (l : List Char) : (⟨l⟩ : String).toList = l := rfl

theorem pyLowerChar_eq_self_of_space (c : Char) (h : isPySpace c = true) :
    pyLowerChar c = c := by
  have hc : c = ' ' ∨ c = '\t' ∨ c = '\n' ∨ c = '\r' ∨ c = '\x0b'
      ∨ c = '\x0c' := by
    simpa [isPySpace, or_assoc] using h
  rcases hc with h1 | h1 | h1 | h1 | h1 | h1 <;> subst h1 <;> decide

theorem pyLowerChar_eq_self_of_digit (c : Char) (h : c.isDigit = true) :
    pyLowerChar c = c := by
  unfold pyLowerChar
  rw [if_neg]
  rintro ⟨h1, -⟩
  simp only [Char.isDigit, ge_iff_le, Bool.and_eq_true, decide_eq_true_eq]
    at h
  obtain ⟨-, hhi⟩ := h
  rw [Char.le_def] at h1
  have ha2 := BitVec.le_def.mp (UInt32.le_def.mp hhi)
  have hb2 := BitVec.le_def.mp (UInt32.le_def.mp h1)
  simp at ha2 hb2
  omega

theorem isPySpace_eq_false_of_digit (c : Char) (h : c.isDigit = true) :
    isPySpace c = false := by
  by_contra hc
  rw [Bool.not_eq_false] at hc
  have hc2 : c = ' ' ∨ c = '\t' ∨ c = '\n' ∨ c = '\r' ∨ c = '\x0b'
      ∨ c = '\x0c' := by
    simpa [isPySpace, or_assoc] using hc
  rcases hc2 with h1 | h1 | h1 | h1 | h1 | h1 <;> subst h1 <;> simp at h

theorem pyLower_eq_all_elim (s : String) (h : pyLower s = "all") :
    ∃ c1 c2 c3, s.toList = [c1, c2, c3] ∧ pyLowerChar c1 = 'a'
      ∧ pyLowerChar c2 = 'l' ∧ pyLowerChar c3 = 'l' := by
  have hdata : s.toList.map pyLowerChar = "all".toList := by
    have h2 := congrArg String.toList h
    simpa [pyLower, toList_mk] using h2
  have hall : "all".toList = ['a', 'l', 'l'] := by decide
  rw [hall] at hdata
  rcases hl : s.toList with _ | ⟨c1, l1⟩ <;> rw [hl] at hdata
  · simp at hdata
  · rcases l1 with _ | ⟨c2, l2⟩
    · simp at hdata
    · rcases l2 with _ | ⟨c3, l3⟩
      · simp at hdata
      · rcases l3 with _ | ⟨c4, l4⟩
        · simp only [List.map_cons, List.map_nil, List.cons.injEq,
            and_true] at hdata
          obtain ⟨h1, h2, h3⟩ := hdata
          exact ⟨c1, c2, c3, rfl, h1, h2, h3⟩
        · simp at hdata

theorem dropWhile_eq_self_of_none (p : Char → Bool) :
    ∀ l : List Char, (∀ c ∈ l, p c = false) → l.dropWhile p = l
  | [], _ => rfl
  | a :: t, h => by
    simp [List.dropWhile_cons, h a (List.mem_cons_self a t)]

theorem dropWhile_eq_nil_of_all (p : Char → Bool) :
    ∀ l : List Char, (∀ c ∈ l, p c = true) → l.dropWhile p = []
  | [], _ => rfl
  | a :: t, h => by
    rw [List.dropWhile_cons, if_pos (h a (List.mem_cons_self a t))]
    exact dropWhile_eq_nil_of_all p t
      (fun c hc => h c (List.mem_cons_of_mem a hc))

theorem pyStrip_toList_of_no_space (s : String)
    (h : ∀ c ∈ s.toList, isPySpace c = false) :
    (pyStrip s).toList = s.toList := by
  unfold pyStrip
  rw [toList_mk, dropWhile_eq_self_of_none _ _ h,
    dropWhile_eq_self_of_none _ _ (fun c hc => h c (by simpa using hc)),
    List.reverse_reverse]

theorem pyStrip_toList_of_all_space (s : String)
    (h : ∀ c ∈ s.toList, isPySpace c = true) :
    (pyStrip s).toList = [] := by
  unfold pyStrip
  rw [toList_mk, dropWhile_eq_nil_of_all _ _ h]
  rfl

/-- The numeric value of a digit string. -/
def digitVal (l : List Char) : Nat :=
  l.foldl (fun a c => a * 10 + (c.toNat - 48)) 0

theorem digitsAux_all_digits :
    ∀ l : List Char, (∀ c ∈ l, c.isDigit = true) → ∀ acc : Nat,
      digitsAux l false acc
        = some (l.foldl (fun a c => a * 10 + (c.toNat - 48)) acc)
  | [], _, acc => rfl
  | c :: t, h, acc => by
    rw [digitsAux, if_pos (h c (List.mem_cons_self c t)), List.foldl_cons]
    exact digitsAux_all_digits t
      (fun x hx => h x (List.mem_cons_of_mem c hx)) _

theorem pyInt_digits (l : List Char) (hne : l ≠ [])
    (h : ∀ c ∈ l, c.isDigit = true) :
    pyInt ⟨l⟩ = some (Int.ofNat (digitVal l)) := by
  unfold pyInt
  have hs : (pyStrip ⟨l⟩).toList = l := by
    rw [pyStrip_toList_of_no_space ⟨l⟩
      (fun c hc => isPySpace_eq_false_of_digit c (h c (by simpa using hc)))]
    rfl
  rw [hs]
  rcases l with _ | ⟨c, t⟩
  · exact absurd rfl hne
  · have hc := h c (List.mem_cons_self c t)
    have hplus : ¬(c = '+') := fun hEq => by
      rw [hEq] at hc; exact absurd hc (by decide)
    have hminus : ¬(c = '-') := fun hEq => by
      rw [hEq] at hc; exact absurd hc (by decide)
    rw [pyIntCore, if_neg hplus, if_neg hminus]
    unfold unsignedDigits
    dsimp only
    rw [if_pos hc, digitsAux_all_digits _ h 0]
    rfl

theorem consHead_ne_nil (x : Char) (L : List (List Char)) :
    consHead x L ≠ [] := by
  cases L <;> simp [consHead]

theorem splitOnChar_ne_nil (c : Char) (l : List Char) :
    splitOnChar c l ≠ [] := by
  cases l with
  | nil => simp [splitOnChar]
  | cons x xs =>
    rw [splitOnChar]
    split
    · simp
    · exact consHead_ne_nil x _

theorem splitOnChar_of_not_mem (c : Char) :
    ∀ l : List Char, c ∉ l → splitOnChar c l = [l]
  | [], _ => rfl
  | x :: xs, h => by
    rw [splitOnChar, if_neg (fun hEq : x = c => h (by
      rw [hEq]; exact List.mem_cons_self c xs))]
    rw [splitOnChar_of_not_mem c xs (fun hm => h (List.mem_cons_of_mem x hm))]
    rfl

theorem splitOnChar_append (c : Char) :
    ∀ xs ys : List Char, c ∉ xs →
      splitOnChar c (xs ++ c :: ys) = xs :: splitOnChar c ys
  | [], ys, _ => by
    rw [List.nil_append, splitOnChar, if_pos rfl]
  | x :: xs, ys, h => by
    rw [List.cons_append, splitOnChar, if_neg (fun hEq : x = c => h (by
      rw [hEq]; exact List.mem_cons_self c xs))]
    rw [splitOnChar_append c xs ys (fun hm => h (List.mem_cons_of_mem x hm))]
    rfl

theorem splitOnChar_token_chars (c : Char) :
    ∀ l : List Char, ∀ t ∈ splitOnChar c l, ∀ x ∈ t, x ∈ l ∧ x ≠ c := by
  intro l
  induction l with
  | nil =>
    intro t ht x hx
    simp [splitOnChar] at ht
    subst ht
    simp at hx
  | cons a xs ih =>
    intro t ht x hx
    rw [splitOnChar] at ht
    by_cases hac : a = c
    · rw [if_pos hac] at ht
      rcases List.mem_cons.mp ht with h1 | h1
      · subst h1; simp at hx
      · obtain ⟨hm, hne⟩ := ih t h1 x hx
        exact ⟨List.mem_cons_of_mem a hm, hne⟩
    · rw [if_neg hac] at ht
      rcases hsp : splitOnChar c xs with _ | ⟨t0, ts⟩
      · exact absurd hsp (splitOnChar_ne_nil c xs)
      · rw [hsp] at ht
        simp only [consHead] at ht
        rcases List.mem_cons.mp ht with h1 | h1
        · subst h1
          rcases List.mem_cons.mp hx with h2 | h2
          · subst h2
            exact ⟨List.mem_cons_self x xs, hac⟩
          · obtain ⟨hm, hne⟩ := ih t0
              (by rw [hsp]; exact List.mem_cons_self t0 ts) x h2
            exact ⟨List.mem_cons_of_mem a hm, hne⟩
        · obtain ⟨hm, hne⟩ := ih t
            (by rw [hsp]; exact List.mem_cons_of_mem t0 h1) x hx
          exact ⟨List.mem_cons_of_mem a hm, hne⟩

theorem mem_intRange {a b x : Int} (hx : x ∈ intRange a b) :
    a ≤ x ∧ x ≤ b := by
  obtain ⟨i, hi, rfl⟩ := List.mem_map.mp hx
  have hi2 := List.mem_range.mp hi
  simp only [Int.ofNat_eq_natCast]
  omega

theorem sorted_intRange (a b : Int) : (intRange a b).Sorted (· < ·) := by
  unfold intRange
  exact List.Pairwise.map _
    (fun i j hij => by simp only [Int.ofNat_eq_natCast]; omega)
    (List.sorted_lt_range _)

/-! ## Claim theorems: valid selections (C4) -/

/-- C4: every successful parse yields only values in [1,114], without
duplicates, in ascending order; and the three specified evaluations hold:
parse "all" = [1..114], parse "10-12" = [10,11,12],
parse "3,1,2,1" = [1,2,3]. -/
theorem c4_parse_valid :
    (∀ (s : String) (l : List Int), parse_surah_selection s = .ok l →
      (∀ x ∈ l, 1 ≤ x ∧ x ≤ 114) ∧ l.Sorted (· < ·))
    ∧ parse_surah_selection "all" = .ok (intRange 1 114)
    ∧ parse_surah_selection "10-12" = .ok [10, 11, 12]
    ∧ parse_surah_selection "3,1,2,1" = .ok [1, 2, 3] := by
  refine ⟨?_, by decide, by decide, by decide⟩
  intro s l h
  unfold parse_surah_selection at h
  split at h
  · -- "all" branch
    injection h with h1
    subst h1
    refine ⟨fun x hx => mem_intRange hx, sorted_intRange 1 114⟩
  · split at h
    · -- range branch
      split at h
      · -- two tokens
        split at h
        · -- both integers parsed
          split at h
          · rename_i hcond
            injection h with h1
            subst h1
            obtain ⟨hc1, hc2, hc3⟩ := hcond
            refine ⟨fun x hx => ?_, sorted_intRange _ _⟩
            obtain ⟨hx1, hx2⟩ := mem_intRange hx
            exact ⟨le_trans hc1 hx1, le_trans hx2 hc3⟩
          · simp at h
        · simp at h
      · simp at h
    · split at h
      · -- comma branch
        split at h
        · -- all tokens parsed as integers
          split at h
          · rename_i vals hvals hall
            injection h with h1
            subst h1
            have hperm := List.perm_insertionSort
              (fun a b : Int => a ≤ b) vals.dedup
            constructor
            · intro x hx
              have hx2 : x ∈ vals.dedup := hperm.mem_iff.mp hx
              exact of_decide_eq_true (List.all_eq_true.mp hall x hx2)
            · have hsorted := List.sorted_insertionSort
                (fun a b : Int => a ≤ b) vals.dedup
              have hnodup : (List.insertionSort
                  (fun a b : Int => a ≤ b) vals.dedup).Nodup :=
                hperm.nodup_iff.mpr (List.nodup_dedup vals)
              exact List.Sorted.lt_of_le hsorted hnodup
          · simp at h
        · simp at h
      · -- single-number branch
        split at h
        · split at h
          · rename_i a hA hcond
            injection h with h1
            subst h1
            refine ⟨fun x hx => ?_, List.sorted_singleton _⟩
            simp only [List.mem_singleton] at hx
            subst hx
            exact hcond
          · simp at h
        · simp at h

/-- Witness for C4 at the concrete expression "7". -/
theorem c4_witness :
    (∀ x ∈ ([7] : List Int), 1 ≤ x ∧ x ≤ 114)
      ∧ ([7] : List Int).Sorted (· < ·) :=
  c4_parse_valid.1 "7" [7] (by decide)

/-! ## Claim theorems: invalid selections (C5) -/

/-- C5: parse fails on every invalid expression: whitespace-only input
(including the empty string), any out-of-range number (value 0 or above
114, e.g. "0" and "115"), any reversed range (e.g. "5-3"), and
non-numeric input such as "abc"; it never clamps or truncates. -/
theorem c5_parse_invalid :
    (∀ s : String, (∀ c ∈ s.toList, isPySpace c = true) →
      ∃ e, parse_surah_selection s = .error e)
    ∧ (∀ l : List Char, l ≠ [] → (∀ c ∈ l, c.isDigit = true) →
      (digitVal l < 1 ∨ 114 < digitVal l) →
      ∃ e, parse_surah_selection ⟨l⟩ = .error e)
    ∧ (∀ la lb : List Char, la ≠ [] → lb ≠ [] →
      (∀ c ∈ la, c.isDigit = true) → (∀ c ∈ lb, c.isDigit = true) →
      digitVal lb < digitVal la →
      ∃ e, parse_surah_selection ⟨la ++ '-' :: lb⟩ = .error e)
    ∧ (∃ e, parse_surah_selection "abc" = .error e) := by
  refine ⟨?_, ?_, ?_, ⟨_, rfl⟩⟩
  · -- whitespace-only input
    intro s hsp
    have hne_all : ¬(pyLower s = "all") := by
      intro h
      obtain ⟨c1, c2, c3, hl, h1, -, -⟩ := pyLower_eq_all_elim s h
      have hc1 : isPySpace c1 = true := hsp c1 (by rw [hl]; simp)
      rw [pyLowerChar_eq_self_of_space c1 hc1] at h1
      subst h1
      exact absurd hc1 (by decide)
    have hnd : ¬(s.toList.contains '-' = true) := by
      intro h
      exact absurd (hsp '-' (List.mem_of_elem_eq_true h)) (by decide)
    have hnc : ¬(s.toList.contains ',' = true) := by
      intro h
      exact absurd (hsp ',' (List.mem_of_elem_eq_true h)) (by decide)
    have hpy : pyInt s = none := by
      unfold pyInt
      rw [pyStrip_toList_of_all_space s hsp]
      rfl
    unfold parse_surah_selection
    rw [if_neg hne_all, if_neg hnd, if_neg hnc, hpy]
    exact ⟨_, rfl⟩
  · -- out-of-range number
    intro l hne hdig hrange
    have hne_all : ¬(pyLower ⟨l⟩ = "all") := by
      intro h
      obtain ⟨c1, c2, c3, hl, h1, -, -⟩ := pyLower_eq_all_elim _ h
      rw [toList_mk] at hl
      have hc1 : c1.isDigit = true := hdig c1 (by rw [hl]; simp)
      rw [pyLowerChar_eq_self_of_digit c1 hc1] at h1
      subst h1
      exact absurd hc1 (by decide)
    have hnd : ¬((⟨l⟩ : String).toList.contains '-' = true) := by
      intro h
      exact absurd (hdig '-' (List.mem_of_elem_eq_true h)) (by decide)
    have hnc : ¬((⟨l⟩ : String).toList.contains ',' = true) := by
      intro h
      exact absurd (hdig ',' (List.mem_of_elem_eq_true h)) (by decide)
    have hcond : ¬(1 ≤ Int.ofNat (digitVal l)
        ∧ Int.ofNat (digitVal l) ≤ 114) := by
      rintro ⟨h1, h2⟩
      simp only [Int.ofNat_eq_natCast] at h1 h2
      omega
    unfold parse_surah_selection
    rw [if_neg hne_all, if_neg hnd, if_neg hnc, pyInt_digits l hne hdig]
    dsimp only
    rw [if_neg hcond]
    exact ⟨_, rfl⟩
  · -- reversed range
    intro la lb hnea hneb hdiga hdigb hlt
    have hminus_a : '-' ∉ la := fun hm => absurd (hdiga '-' hm) (by decide)
    have hminus_b : '-' ∉ lb := fun hm => absurd (hdigb '-' hm) (by decide)
    have hne_all : ¬(pyLower ⟨la ++ '-' :: lb⟩ = "all") := by
      intro h
      obtain ⟨c1, c2, c3, hl, h1, h2, h3⟩ := pyLower_eq_all_elim _ h
      rw [toList_mk] at hl
      have hmem : '-' ∈ ([c1, c2, c3] : List Char) := by
        rw [← hl]
        exact List.mem_append_right _ (List.mem_cons_self _ _)
      simp only [List.mem_cons, List.not_mem_nil, or_false] at hmem
      rcases hmem with h4 | h4 | h4
      · rw [← h4] at h1; exact absurd h1 (by decide)
      · rw [← h4] at h2; exact absurd h2 (by decide)
      · rw [← h4] at h3; exact absurd h3 (by decide)
    have hcont : ((la ++ '-' :: lb).contains '-') = true :=
      List.elem_eq_true_of_mem
        (List.mem_append_right _ (List.mem_cons_self _ _))
    have hcond : ¬(1 ≤ Int.ofNat (digitVal la)
        ∧ Int.ofNat (digitVal la) ≤ Int.ofNat (digitVal lb)
        ∧ Int.ofNat (digitVal lb) ≤ 114) := by
      rintro ⟨-, h2, -⟩
      simp only [Int.ofNat_eq_natCast] at h2
      omega
    unfold parse_surah_selection
    rw [toList_mk, if_neg hne_all, if_pos hcont,
      splitOnChar_append '-' la lb hminus_a,
      splitOnChar_of_not_mem '-' lb hminus_b]
    dsimp only
    rw [pyInt_digits la hnea hdiga, pyInt_digits lb hneb hdigb]
    dsimp only
    rw [if_neg hcond]
    exact ⟨_, rfl⟩

/-- Witness for C5: the whitespace-only, out-of-range, and reversed-range
conjuncts applied at " ", "115" and "5-3". -/
theorem c5_witness :
    (∃ e, parse_surah_selection " " = .error e)
    ∧ (∃ e, parse_surah_selection ⟨['1', '1', '5']⟩ = .error e)
    ∧ (∃ e, parse_surah_selection ⟨['5'] ++ '-' :: ['3']⟩ = .error e)
    ∧ (∃ e, parse_surah_selection "abc" = .error e) :=
  ⟨c5_parse_invalid.1 " " (by decide),
   c5_parse_invalid.2.1 ['1', '1', '5'] (by decide) (by decide) (by decide),
   c5_parse_invalid.2.2.1 ['5'] ['3'] (by decide) (by decide) (by decide)
     (by decide) (by decide),
   c5_parse_invalid.2.2.2⟩

/-! ## Claim theorems: blank comma tokens (C10) -/

/-- C10: a selection that contains a comma but only blank tokens (for
example "," or " , ") parses successfully to the empty selection, and
an orchestrator run over the empty selection produces a summary with
total == 0 (and success == failed == 0). -/
theorem c10_blank_comma_tokens_empty_selection :
    (∀ s : String, s.toList.contains ',' = true →
      (∀ c ∈ s.toList, c = ',' ∨ isPySpace c = true) →
      parse_surah_selection s = .ok [])
    ∧ (∀ (itemOutcome : Int → Except String FetchResult)
        (reciterName outputDir : String),
      runFanOut itemOutcome reciterName outputDir [] []
        = { reciter := some reciterName, total := 0, success := 0,
            failed := 0, errors := [], outputDir := outputDir }) := by
  constructor
  · intro s hcomma hchars
    have hne_all : ¬(pyLower s = "all") := by
      intro h
      obtain ⟨c1, c2, c3, hl, h1, -, -⟩ := pyLower_eq_all_elim s h
      rcases hchars c1 (by rw [hl]; simp) with h2 | h2
      · subst h2
        exact absurd h1 (by decide)
      · rw [pyLowerChar_eq_self_of_space c1 h2] at h1
        subst h1
        exact absurd h2 (by decide)
    have hnd : ¬(s.toList.contains '-' = true) := by
      intro h
      rcases hchars '-' (List.mem_of_elem_eq_true h) with h2 | h2
      · exact absurd h2 (by decide)
      · exact absurd h2 (by decide)
    have hfilter : (splitOnChar ',' s.toList).filter
        (fun t => !((pyStrip (String.mk t)).toList.isEmpty)) = [] := by
      rw [List.filter_eq_nil_iff]
      intro t ht
      have hblank : ∀ c ∈ t, isPySpace c = true := by
        intro x hx
        obtain ⟨hmem, hxne⟩ := splitOnChar_token_chars ',' s.toList t ht x hx
        rcases hchars x hmem with h2 | h2
        · exact absurd h2 hxne
        · exact h2
      rw [Bool.not_eq_true, Bool.not_eq_false',
        pyStrip_toList_of_all_space (String.mk t) hblank]
      rfl
    unfold parse_surah_selection
    rw [if_neg hne_all, if_neg hnd, if_pos hcomma, hfilter]
    rfl
  · intro itemOutcome reciterName outputDir
    rfl

/-- Witness for C10 at the blank selection " , ". -/
theorem c10_witness :
    parse_surah_selection " , " = .ok []
      ∧ runFanOut (fun _ => .error "unreachable") "R" "out" [] []
        = { reciter := some "R", total := 0, success := 0, failed := 0,
            errors := [], outputDir := "out" } :=
  ⟨c10_blank_comma_tokens_empty_selection.1 " , " (by decide) (by decide),
   c10_blank_comma_tokens_empty_selection.2 (fun _ => .error "unreachable")
     "R" "out"⟩

end QuranDl
